import Mathlib

/-!
Verification of the VCET texture-baking pipeline.

Shallow embedding of the worker-stage computations of
`UPlanarTextureBaker::BakeLayer`, `USphericalTextureBaker::BakeLayer` and
`UVolumeTextureBaker::BakeVolume`, of the pixel-packing conversions, and of
the per-layer bake state machines.  Float arithmetic is modelled exactly
over `ℚ`; the double-precision spherical projection is modelled over `ℝ`.
-/

namespace VCET

/-- RGBA color with rational components, modelling `FLinearColor`
(float components modelled exactly over `ℚ`). -/
structure LinearColor where
  r : ℚ
  g : ℚ
  b : ℚ
  a : ℚ
deriving DecidableEq, Repr

/-- Entry value of a freshly sized `TArray<FLinearColor>` after `SetNum(N)`
(zero-initialized POD elements). -/
def defaultColor : LinearColor := ⟨0, 0, 0, 0⟩

/-- Grayscale color `FLinearColor(v, v, v, 1)` as written by the grayscale
branches of all three bakers. -/
def grayColor (v : ℚ) : LinearColor := ⟨v, v, v, 1⟩

/-- `FMath::Clamp(v, 0.f, 1.f)`. -/
def clamp01 (v : ℚ) : ℚ := min (max v 0) 1

/-- Step `if (bRemap) Val = (Val + 1.f) * 0.5f;`. -/
def applyRemap (bRemap : Bool) (v : ℚ) : ℚ := if bRemap then (v + 1) * (1/2) else v

/-- Step `Val *= Mult;`. -/
def applyMultiplier (mult v : ℚ) : ℚ := v * mult

/-- Step `if (bInv) Val = 1.f - Val;`. -/
def applyInvert (bInv : Bool) (v : ℚ) : ℚ := if bInv then 1 - v else v

/-- The three sequential per-sample scalar statements of the grayscale first
pass, in source order: remap, then multiplier, then invert. -/
def scalarSteps (bRemap : Bool) (mult : ℚ) (bInv : Bool) (v : ℚ) : ℚ :=
  applyInvert bInv (applyMultiplier mult (applyRemap bRemap v))

/-- `FLT_MAX`, exactly: (2^24 - 1) · 2^104. -/
def fltMax : ℚ := (2 ^ 24 - 1) * 2 ^ 104

/-- `UPlanarTextureBaker::BakeLayer`, no-metadata branch: sample the distance
field as grayscale (`Dist[i]` modelled as `dist.getD i 0`), apply
remap/multiplier/invert while tracking the running min/max, then either
auto-normalize (when enabled and `MaxV > MinV`) or clamp to `[0,1]`. -/
def planarBakeGrayscale (bRemap : Bool) (mult : ℚ) (bInv bNorm : Bool)
    (N : ℕ) (dist : List ℚ) : List LinearColor :=
  let colors := (List.range N).map
    (fun i => grayColor (scalarSteps bRemap mult bInv (dist.getD i 0)))
  let minV := (colors.map (fun c => c.r)).foldl min fltMax
  let maxV := (colors.map (fun c => c.r)).foldl max (-fltMax)
  if bNorm ∧ minV < maxV then
    colors.map (fun c => grayColor ((c.r - minV) / (maxV - minV)))
  else
    colors.map (fun c => grayColor (clamp01 c.r))

/-- `USphericalTextureBaker::BakeLayer`, no-metadata branch: identical
statement sequence to the planar baker's grayscale branch. -/
def sphericalBakeGrayscale (bRemap : Bool) (mult : ℚ) (bInv bNorm : Bool)
    (N : ℕ) (dist : List ℚ) : List LinearColor :=
  let colors := (List.range N).map
    (fun i => grayColor (scalarSteps bRemap mult bInv (dist.getD i 0)))
  let minV := (colors.map (fun c => c.r)).foldl min fltMax
  let maxV := (colors.map (fun c => c.r)).foldl max (-fltMax)
  if bNorm ∧ minV < maxV then
    colors.map (fun c => grayColor ((c.r - minV) / (maxV - minV)))
  else
    colors.map (fun c => grayColor (clamp01 c.r))

/-- `UVolumeTextureBaker::BakeVolume`, grayscale processing block
(`if (Result.bIsGrayscale)`) applied to an already-filled
`Result.ColorData`: first pass reads `ColorData[i].R`, applies
remap/multiplier/invert and tracks min/max, second pass normalizes or
clamps. -/
def volumeGrayscaleProcess (bRemap : Bool) (mult : ℚ) (bInv bNorm : Bool)
    (colorData : List LinearColor) : List LinearColor :=
  let colors := colorData.map
    (fun c => grayColor (scalarSteps bRemap mult bInv c.r))
  let minV := (colors.map (fun c => c.r)).foldl min fltMax
  let maxV := (colors.map (fun c => c.r)).foldl max (-fltMax)
  if bNorm ∧ minV < maxV then
    colors.map (fun c => grayColor ((c.r - minV) / (maxV - minV)))
  else
    colors.map (fun c => grayColor (clamp01 c.r))

/-- `UVolumeTextureBaker::BakeVolume`, distance-field branch: store each raw
distance sample as `FLinearColor(Val, Val, Val, 1)` and run the shared
grayscale processing block on the result. -/
def volumeBakeGrayscale (bRemap : Bool) (mult : ℚ) (bInv bNorm : Bool)
    (N : ℕ) (dist : List ℚ) : List LinearColor :=
  volumeGrayscaleProcess bRemap mult bInv bNorm
    ((List.range N).map (fun i => grayColor (dist.getD i 0)))

/-- C4: the scalar post-processing applies remap, then multiplier, then
invert, then normalize-or-clamp, in that order: raw 0.5 remaps to 0.75,
multiplies (by 2) to 1.5, inverts to −0.5, and a constant input buffer
(min = max, normalization skipped) clamps the final value to 0. -/
theorem processing_order_concrete :
    applyRemap true (1/2) = 3/4
  ∧ applyMultiplier 2 (3/4) = 3/2
  ∧ applyInvert true (3/2) = -(1/2)
  ∧ planarBakeGrayscale true 2 true true 4 (List.replicate 4 (1/2))
      = List.replicate 4 (grayColor 0) := by
  refine ⟨by norm_num [applyRemap], by norm_num [applyMultiplier],
    by norm_num [applyInvert], ?_⟩
  norm_num [planarBakeGrayscale, grayColor, scalarSteps, applyRemap, applyMultiplier,
    applyInvert, clamp01, fltMax, List.range_succ, min_def, max_def, List.replicate]

/-- C10: the grayscale (distance-field) post-processing pipelines of the
planar, spherical and volumetric bakers are extensionally equal: for every
raw scalar buffer and every setting of remap, multiplier, invert and
auto-normalize, all three produce the same processed colors. -/
theorem grayscale_pipelines_agree (bRemap : Bool) (mult : ℚ) (bInv bNorm : Bool)
    (N : ℕ) (dist : List ℚ) :
    sphericalBakeGrayscale bRemap mult bInv bNorm N dist
      = planarBakeGrayscale bRemap mult bInv bNorm N dist
  ∧ volumeBakeGrayscale bRemap mult bInv bNorm N dist
      = planarBakeGrayscale bRemap mult bInv bNorm N dist := by
  constructor
  · rfl
  · simp only [volumeBakeGrayscale, volumeGrayscaleProcess, planarBakeGrayscale,
      List.map_map, Function.comp_def, grayColor]

/-- Channel-source detection result of `BakeLayer` / `BakeVolume` (the
`EPlanarMetadataType` / `EMetadataType` enums): which metadata class the
layer's `Meta` object resolved to. -/
inductive MetadataType
  | none
  | float
  | linearColor
  | normal
deriving DecidableEq, Repr

/-- Numeric processing options captured by value before dispatching the
worker task (`bRemapNegativeToPositive`, `bInvertResult`, `bAutoNormalize`,
`ResultMultiplier`). -/
structure ProcOpts where
  bRemap : Bool
  bInv : Bool
  bNorm : Bool
  mult : ℚ
deriving DecidableEq, Repr

/-- Field-sampling responses for one bake: the batched query results the
worker would receive for each channel source (distance field, float
metadata buffer, linear-color metadata buffer, normal metadata buffer). -/
structure FieldResponse where
  dist : List ℚ
  floats : List ℚ
  colors : List LinearColor
  normals : List (ℚ × ℚ × ℚ)
deriving DecidableEq, Repr

/-- `UPlanarTextureBaker::BakeLayer`, float-metadata branch: the output is
presized to `N` (zeroed), then for `i < min(FB->Num(), N)` the sampled
float goes through remap/multiplier/invert and lands in the R channel only:
`Result.Colors[i] = FLinearColor(Val, 0.f, 0.f, 1.f)`. -/
def planarFloatPath (bRemap : Bool) (mult : ℚ) (bInv : Bool)
    (N : ℕ) (fb : List ℚ) : List LinearColor :=
  (List.range N).map (fun i =>
    if i < min fb.length N then
      ⟨scalarSteps bRemap mult bInv (fb.getD i 0), 0, 0, 1⟩
    else defaultColor)

/-- `UPlanarTextureBaker::BakeLayer`, linear-color-metadata branch: the
output is presized to `N` (zeroed), then for `i < min(CB->Num(), N)` the
sampled color is copied through unchanged (no remap, multiplier, invert,
normalize or clamp). -/
def planarColorPath (N : ℕ) (cb : List LinearColor) : List LinearColor :=
  (List.range N).map (fun i =>
    if i < min cb.length N then cb.getD i defaultColor else defaultColor)

/-- `UPlanarTextureBaker::BakeLayer`, normal-metadata branch: each sampled
normal component is remapped by `v * 0.5 + 0.5` into R, G, B with A = 1,
for `i < min(NB->Num(), N)`; remaining entries keep the zeroed default. -/
def planarNormalPath (N : ℕ) (nb : List (ℚ × ℚ × ℚ)) : List LinearColor :=
  (List.range N).map (fun i =>
    if i < min nb.length N then
      let n := nb.getD i (0, 0, 0)
      ⟨n.1 * (1/2) + 1/2, n.2.1 * (1/2) + 1/2, n.2.2 * (1/2) + 1/2, 1⟩
    else defaultColor)

/-- The channel-selection / post-processing stage of
`UPlanarTextureBaker::BakeLayer`: dispatch on the detected metadata type to
the float, linear-color, normal or distance-field (grayscale) branch. -/
def planarProcess (mt : MetadataType) (o : ProcOpts) (N : ℕ)
    (resp : FieldResponse) : List LinearColor :=
  match mt with
  | .float => planarFloatPath o.bRemap o.mult o.bInv N resp.floats
  | .linearColor => planarColorPath N resp.colors
  | .normal => planarNormalPath N resp.normals
  | .none => planarBakeGrayscale o.bRemap o.mult o.bInv o.bNorm N resp.dist

/-- `UVolumeTextureBaker::BakeVolume`, float-metadata branch: the output is
presized to `TotalVoxels` (zeroed), sampled floats are stored as
`FLinearColor(Val, Val, Val, 1)` for `i < min(FB->Num(), TotalVoxels)`,
and the shared grayscale processing block then runs over the whole
buffer. -/
def volumeFloatPath (bRemap : Bool) (mult : ℚ) (bInv bNorm : Bool)
    (N : ℕ) (fb : List ℚ) : List LinearColor :=
  volumeGrayscaleProcess bRemap mult bInv bNorm
    ((List.range N).map (fun i =>
      if i < min fb.length N then grayColor (fb.getD i 0) else defaultColor))

/-- All RGBA components of a color lie in the unit interval. -/
def inUnitInterval (c : LinearColor) : Prop :=
  0 ≤ c.r ∧ c.r ≤ 1 ∧ 0 ≤ c.g ∧ c.g ≤ 1 ∧ 0 ≤ c.b ∧ c.b ≤ 1 ∧ 0 ≤ c.a ∧ c.a ≤ 1

theorem getD_range_map {α : Type} (f : ℕ → α) (N i : ℕ) (d : α) :
    ((List.range N).map f).getD i d = if i < N then f i else d := by
  by_cases h : i < N
  · rw [List.getD_eq_getElem?_getD]
    simp [List.getElem?_map, List.getElem?_range h, if_pos h]
  · rw [List.getD_eq_getElem?_getD, List.getElem?_eq_none]
    · simp [h]
    · simpa using Nat.le_of_not_lt h

theorem foldl_min_le_init (l : List ℚ) (init : ℚ) : l.foldl min init ≤ init := by
  induction l generalizing init with
  | nil => exact le_refl _
  | cons b t ih => exact le_trans (ih (min init b)) (min_le_left _ _)

theorem foldl_min_le (l : List ℚ) (init a : ℚ) (h : a ∈ l) :
    l.foldl min init ≤ a := by
  induction l generalizing init with
  | nil => cases h
  | cons b t ih =>
    rcases List.mem_cons.1 h with rfl | h'
    · exact le_trans (foldl_min_le_init t (min init a)) (min_le_right _ _)
    · exact ih (min init b) h'

theorem init_le_foldl_max (l : List ℚ) (init : ℚ) : init ≤ l.foldl max init := by
  induction l generalizing init with
  | nil => exact le_refl _
  | cons b t ih => exact le_trans (le_max_left _ _) (ih (max init b))

theorem le_foldl_max (l : List ℚ) (init a : ℚ) (h : a ∈ l) :
    a ≤ l.foldl max init := by
  induction l generalizing init with
  | nil => cases h
  | cons b t ih =>
    rcases List.mem_cons.1 h with rfl | h'
    · exact le_trans (le_max_right _ _) (init_le_foldl_max t (max init a))
    · exact ih (max init b) h'

theorem clamp01_nonneg (v : ℚ) : 0 ≤ clamp01 v :=
  le_min (le_max_right _ _) (by norm_num)

theorem clamp01_le_one (v : ℚ) : clamp01 v ≤ 1 := min_le_right _ _

/-- Processing options for concrete counterexample runs: remap, invert and
auto-normalize off, multiplier 1 (all post-processing steps are identity). -/
def cexOpts : ProcOpts := ⟨false, false, false, 1⟩

/-- Field response for concrete counterexample runs: the float-metadata
buffer holds the single sample 2.0. -/
def cexResp : FieldResponse := ⟨[], [2], [], []⟩

/-- C2 counterexample: with channel source Scalar (float metadata), raw
sample 2.0 and all processing options at their identity settings, the
processed buffer contains the color (2, 0, 0, 1), whose R component lies
outside [0,1] — the float-metadata branch applies neither clamping nor
normalization. -/
theorem processed_unit_interval_cex :
    ¬ (∀ c ∈ planarProcess MetadataType.float cexOpts 1 cexResp, inUnitInterval c) := by
  have hEq : planarProcess MetadataType.float cexOpts 1 cexResp
      = [⟨2, 0, 0, 1⟩] := by
    norm_num [planarProcess, planarFloatPath, cexOpts, cexResp, scalarSteps,
      applyRemap, applyMultiplier, applyInvert, List.range_succ]
  intro h
  have h2 := h ⟨2, 0, 0, 1⟩ (by rw [hEq]; exact List.mem_singleton.mpr rfl)
  rcases h2 with ⟨-, h2, -⟩
  norm_num [inUnitInterval] at h2

/-- C2 amended: the processed pixel buffer always has length exactly N in
every channel-source mode, and on the distance-field (None) path every RGBA
component lies in [0,1]; the float-metadata, color-metadata and
normal-metadata paths do not bound their components. -/
theorem processed_buffer_length_and_gray_bounds :
    (∀ mt o N resp, (planarProcess mt o N resp).length = N)
  ∧ (∀ (bR : Bool) (m : ℚ) (bI bN : Bool) (N : ℕ) (dist : List ℚ),
      ∀ c ∈ planarBakeGrayscale bR m bI bN N dist, inUnitInterval c) := by
  constructor
  · intro mt o N resp
    cases mt <;>
      simp [planarProcess, planarFloatPath, planarColorPath, planarNormalPath,
        planarBakeGrayscale, apply_ite List.length]
  · intro bR m bI bN N dist c hc
    simp only [planarBakeGrayscale] at hc
    split at hc
    case isTrue h =>
      obtain ⟨c', hc', rfl⟩ := List.mem_map.1 hc
      have hmin := foldl_min_le _ fltMax c'.r (List.mem_map_of_mem _ hc')
      have hmax := le_foldl_max _ (-fltMax) c'.r (List.mem_map_of_mem _ hc')
      have hlt : (0 : ℚ) <
          (List.map (fun c => c.r) ((List.range N).map
            (fun i => grayColor (scalarSteps bR m bI (dist.getD i 0))))).foldl max (-fltMax)
          - (List.map (fun c => c.r) ((List.range N).map
            (fun i => grayColor (scalarSteps bR m bI (dist.getD i 0))))).foldl min fltMax :=
        sub_pos.2 h.2
      refine ⟨div_nonneg (sub_nonneg.2 hmin) (le_of_lt hlt), ?_,
        div_nonneg (sub_nonneg.2 hmin) (le_of_lt hlt), ?_,
        div_nonneg (sub_nonneg.2 hmin) (le_of_lt hlt), ?_, by norm_num [grayColor], by norm_num [grayColor]⟩
        <;> exact (div_le_one hlt).2 (sub_le_sub_right hmax _)
    case isFalse h =>
      obtain ⟨c', hc', rfl⟩ := List.mem_map.1 hc
      exact ⟨clamp01_nonneg _, clamp01_le_one _, clamp01_nonneg _, clamp01_le_one _,
        clamp01_nonneg _, clamp01_le_one _, by norm_num [grayColor], by norm_num [grayColor]⟩

/-- C2 witness: a concrete run of both conjuncts — a 2-pixel grayscale
bake has buffer length 2 and its first pixel lies in the unit cube. -/
theorem processed_buffer_length_and_gray_bounds_witness :
    (planarProcess MetadataType.none cexOpts 2 cexResp).length = 2
  ∧ inUnitInterval ((planarBakeGrayscale false 1 false false 2 []).getD 0 defaultColor) := by
  constructor
  · exact processed_buffer_length_and_gray_bounds.1 MetadataType.none cexOpts 2 cexResp
  · have hmem : ((planarBakeGrayscale false 1 false false 2 []).getD 0 defaultColor)
        ∈ planarBakeGrayscale false 1 false false 2 [] := by
      norm_num [planarBakeGrayscale, grayColor, scalarSteps, applyRemap,
        applyMultiplier, applyInvert, clamp01, fltMax, List.range_succ, min_def, max_def]
    exact processed_buffer_length_and_gray_bounds.2 false 1 false false 2 [] _ hmem

/-- C3 counterexample: with channel source Scalar (float metadata) and raw
sample 2.0, the planar baker produces the color (2, 0, 0, 1): the scalar
value is written to R only, with G = B = 0 rather than mirrored copies of
R. -/
theorem scalar_mirror_cex :
    ¬ (∀ c ∈ planarProcess MetadataType.float cexOpts 1 cexResp,
        c.g = c.r ∧ c.b = c.r) := by
  have hEq : planarProcess MetadataType.float cexOpts 1 cexResp
      = [⟨2, 0, 0, 1⟩] := by
    norm_num [planarProcess, planarFloatPath, cexOpts, cexResp, scalarSteps,
      applyRemap, applyMultiplier, applyInvert, List.range_succ]
  intro h
  have h2 := h ⟨2, 0, 0, 1⟩ (by rw [hEq]; exact List.mem_singleton.mpr rfl)
  norm_num at h2

/-- C3 amended: the single scalar value is mirrored to G and B with A = 1
on the distance-field (None) path of the planar baker and on the volume
baker's grayscale processing (covering its float-metadata and
distance-field sources); the planar (and spherical) float-metadata path
instead writes the scalar to R only, with G = B = 0. -/
theorem scalar_channel_mapping :
    (∀ (bR : Bool) (m : ℚ) (bI bN : Bool) (N : ℕ) (dist : List ℚ),
      ∀ c ∈ planarBakeGrayscale bR m bI bN N dist, c.g = c.r ∧ c.b = c.r ∧ c.a = 1)
  ∧ (∀ (bR : Bool) (m : ℚ) (bI bN : Bool) (cd : List LinearColor),
      ∀ c ∈ volumeGrayscaleProcess bR m bI bN cd, c.g = c.r ∧ c.b = c.r ∧ c.a = 1)
  ∧ (∀ (bR : Bool) (m : ℚ) (bI : Bool) (N : ℕ) (fb : List ℚ),
      ∀ c ∈ planarFloatPath bR m bI N fb, c.g = 0 ∧ c.b = 0) := by
  refine ⟨?_, ?_, ?_⟩
  · intro bR m bI bN N dist c hc
    simp only [planarBakeGrayscale] at hc
    split at hc <;>
    · obtain ⟨c', hc', rfl⟩ := List.mem_map.1 hc
      exact ⟨rfl, rfl, rfl⟩
  · intro bR m bI bN cd c hc
    simp only [volumeGrayscaleProcess] at hc
    split at hc <;>
    · obtain ⟨c', hc', rfl⟩ := List.mem_map.1 hc
      exact ⟨rfl, rfl, rfl⟩
  · intro bR m bI N fb c hc
    simp only [planarFloatPath] at hc
    obtain ⟨i, hi, rfl⟩ := List.mem_map.1 hc
    split <;> exact ⟨rfl, rfl⟩

/-- C3 witness: concrete instances of all three conjuncts — grayscale
pixels mirror R into G and B with A = 1, and the float path leaves
G = B = 0. -/
theorem scalar_channel_mapping_witness :
    (∀ c ∈ planarBakeGrayscale false 1 false false 1 [1/2], c.g = c.r ∧ c.b = c.r ∧ c.a = 1)
  ∧ (∀ c ∈ volumeGrayscaleProcess false 1 false false [grayColor (1/2)],
      c.g = c.r ∧ c.b = c.r ∧ c.a = 1)
  ∧ (∀ c ∈ planarFloatPath false 1 false 1 [1/2], c.g = 0 ∧ c.b = 0) :=
  ⟨scalar_channel_mapping.1 false 1 false false 1 [1/2],
   scalar_channel_mapping.2.1 false 1 false false [grayColor (1/2)],
   scalar_channel_mapping.2.2 false 1 false 1 [1/2]⟩

/-- C8: under-fill safety of the float-metadata branch: the processed
buffer is presized to exactly N; the copy loop is bounded by
min(M, N) (so the raw buffer is only read at indices below M); every entry
at index ≥ M keeps the zeroed default value. -/
theorem underfill_safety (bR : Bool) (m : ℚ) (bI : Bool) (N : ℕ) (fb : List ℚ) :
    (planarFloatPath bR m bI N fb).length = N
  ∧ (∀ i, i < min fb.length N →
      (planarFloatPath bR m bI N fb).getD i defaultColor
        = ⟨scalarSteps bR m bI (fb.getD i 0), 0, 0, 1⟩)
  ∧ (∀ i, fb.length ≤ i →
      (planarFloatPath bR m bI N fb).getD i defaultColor = defaultColor) := by
  refine ⟨by simp [planarFloatPath], ?_, ?_⟩
  · intro i hi
    rw [planarFloatPath, getD_range_map]
    rw [if_pos (lt_of_lt_of_le hi (min_le_right _ _)), if_pos hi]
  · intro i hi
    rw [planarFloatPath, getD_range_map]
    by_cases hN : i < N
    · rw [if_pos hN, if_neg]
      exact fun h => absurd (lt_of_lt_of_le h (min_le_left _ _)) (Nat.not_lt.2 hi)
    · rw [if_neg hN]

/-- C8 witness: a 3-pixel bake whose raw float result has length 1: the
first entry is processed, entries at indices 1 and 2 keep the default. -/
theorem underfill_safety_witness :
    (planarFloatPath false 1 false 3 [2]).length = 3
  ∧ (planarFloatPath false 1 false 3 [2]).getD 0 defaultColor = ⟨2, 0, 0, 1⟩
  ∧ (planarFloatPath false 1 false 3 [2]).getD 2 defaultColor = defaultColor := by
  refine ⟨(underfill_safety false 1 false 3 [2]).1, ?_, ?_⟩
  · have h := (underfill_safety false 1 false 3 [2]).2.1 0 (by norm_num)
    simpa [scalarSteps, applyRemap, applyMultiplier, applyInvert] using h
  · exact (underfill_safety false 1 false 3 [2]).2.2 2 (by norm_num)

/-- `Then_GameThread` continuation of `UPlanarTextureBaker::BakeLayer`
(identical in the spherical baker): resolve the weak pointers to the owning
component and the destination render target; if either is gone, return
without touching anything; otherwise write the pixels (when the result is
non-empty), clear the per-layer baking flag and broadcast the completion
event.  Returns (new baking flag, pixels written, event fired). -/
def planarHandoff (thisAlive rtAlive prevBaking : Bool) (resultNum : ℕ) :
    Bool × Bool × Bool :=
  if thisAlive && rtAlive then (false, decide (0 < resultNum), true)
  else (prevBaking, false, false)

/-- `Then_GameThread` continuation of `UVolumeTextureBaker::BakeVolume`:
only the owning component's liveness is checked up front;
`WriteToVolumeRT` itself no-ops when the destination texture is gone, but
the baking flag is cleared and `OnBakeComplete` fires whenever the owner
is alive.  Returns (new baking flag, pixels written, event fired). -/
def volumeHandoff (thisAlive rtAlive prevBaking : Bool) (resultNum : ℕ) :
    Bool × Bool × Bool :=
  if thisAlive then (false, decide (0 < resultNum) && rtAlive, true)
  else (prevBaking, false, false)

/-- C1 counterexample: in the planar baker, when the worker completes with
the owning component alive but the destination render target destroyed
(continuation input: thisAlive, not rtAlive, flag InProgress, 16 pixels),
the baking flag is NOT reset to Idle — the layer is left stuck
InProgress, contradicting the claim that the state always resets when the
owner survives. -/
theorem handoff_reset_cex :
    ¬ ((planarHandoff true false true 16).1 = false) := by decide

/-- C1 amended: when the worker stage completes with the owning component
alive, the planar baker resets the layer to Idle and fires the event only
when the destination also survives; if only the destination was destroyed
the continuation returns early and the layer stays stuck InProgress with
no event.  The volume baker resets to Idle and fires the event whenever
the owner is alive, even when the destination is gone (the pixel write is
skipped). -/
theorem handoff_state_reset (prev : Bool) (n : ℕ) :
    planarHandoff true true prev n = (false, decide (0 < n), true)
  ∧ planarHandoff true false prev n = (prev, false, false)
  ∧ (∀ rtAlive, volumeHandoff true rtAlive prev n
      = (false, decide (0 < n) && rtAlive, true)) := by
  refine ⟨rfl, rfl, fun rtAlive => ?_⟩
  simp [volumeHandoff]

/-- Precondition-relevant state of one planar baker layer
(`bEnablePrimaryLayer`, `bIsBakingPrimary`, and validity of the world, the
voxel layer handle, the render target, and the `FVoxelLayers` lookup). -/
structure PlanarBakerState where
  enabled : Bool
  baking : Bool
  worldValid : Bool
  layerValid : Bool
  rtValid : Bool
  layersValid : Bool
deriving DecidableEq, Repr

/-- `UPlanarTextureBaker::ForceRebakePrimary` followed by the precondition
checks at the top of `BakeLayer`: a disabled or already-baking layer
returns immediately; world/layer/RT failures return before setting the
flag; a failed `FVoxelLayers::Get` sets and then clears the flag.  Returns
(new state, worker task dispatched). -/
def forceRebakePrimary (s : PlanarBakerState) : PlanarBakerState × Bool :=
  if !s.enabled || s.baking then (s, false)
  else if !(s.worldValid && s.layerValid && s.rtValid) then (s, false)
  else if !s.layersValid then (s, false)
  else ({ s with baking := true }, true)

/-- Precondition-relevant state of the volume baker (`bIsBaking` and
validity of the world, the voxel layer handle, and the `FVoxelLayers`
lookup; `CreateVolumeRT` always leaves a valid destination). -/
structure VolumeBakerState where
  baking : Bool
  worldValid : Bool
  layerValid : Bool
  layersValid : Bool
deriving DecidableEq, Repr

/-- `UVolumeTextureBaker::ForceRebake` followed by the precondition checks
at the top of `BakeVolume`.  Returns (new state, worker task
dispatched). -/
def volumeForceRebake (s : VolumeBakerState) : VolumeBakerState × Bool :=
  if s.baking then (s, false)
  else if !(s.worldValid && s.layerValid) then (s, false)
  else if !s.layersValid then (s, false)
  else ({ s with baking := true }, true)

/-- C5: a bake request arriving while the layer is InProgress is dropped:
no second worker task is dispatched and the state is returned unchanged
(so the in-flight bake, whose worker and continuation operate only on
parameters captured at its own dispatch, is unaffected).  Holds for both
the planar layer and the volume baker. -/
theorem inflight_request_dropped (s : PlanarBakerState) (s' : VolumeBakerState)
    (h : s.baking = true) (h' : s'.baking = true) :
    forceRebakePrimary s = (s, false) ∧ volumeForceRebake s' = (s', false) := by
  constructor
  · simp [forceRebakePrimary, h]
  · simp [volumeForceRebake, h']

/-- Fully-valid baker states that are currently InProgress. -/
def busyPlanar : PlanarBakerState := ⟨true, true, true, true, true, true⟩

/-- Fully-valid volume baker state that is currently InProgress. -/
def busyVolume : VolumeBakerState := ⟨true, true, true, true⟩

/-- C5 witness: concrete InProgress states — the request is dropped with
the state unchanged. -/
theorem inflight_request_dropped_witness :
    forceRebakePrimary busyPlanar = (busyPlanar, false)
  ∧ volumeForceRebake busyVolume = (busyVolume, false) :=
  inflight_request_dropped busyPlanar busyVolume rfl rfl

/-- `UPlanarTextureBaker::WriteGrayscale` 8-bit conversion:
`uint8(FMath::Clamp(V[i], 0.f, 1.f) * 255.f)` — clamp to [0,1], multiply
by 255, then truncate via the integer cast (floor, since the value is
non-negative). -/
def writeGrayscaleByte (v : ℚ) : ℤ := ⌊clamp01 v * 255⌋

/-- `UVolumeTextureBaker::WriteToVolumeRT` 8-bit conversion
(`PF_B8G8R8A8` and `PF_G8` branches):
`static_cast<uint8>(FMath::Clamp(Color.R * 255.f, 0.f, 255.f))` —
multiply by 255 first, clamp to [0,255], then truncate. -/
def volumeRTByte (v : ℚ) : ℤ := ⌊min (max (v * 255) 0) 255⌋

/-- C7 counterexample: for v = 0.5 the stored byte is 127 — the code
truncates `clamp(v,0,1)·255 = 127.5`, while rounding (as the claim
states) would give 128. -/
theorem pack_byte_round_cex :
    writeGrayscaleByte (1/2) ≠ round (clamp01 (1/2) * 255) := by
  have h1 : clamp01 (1/2 : ℚ) = 1/2 := by
    norm_num [clamp01, min_def, max_def]
  have h2 : writeGrayscaleByte (1/2) = 127 := by
    rw [writeGrayscaleByte, h1]
    norm_num
  have h3 : round ((1:ℚ)/2 * 255) = 128 := by
    rw [round_eq]
    norm_num
  rw [h2, h1, h3]
  omega

/-- C7 amended: packing a processed float into an 8-bit channel stores
`⌊clamp(v,0,1)·255⌋` (truncation, not rounding); the grayscale-write and
volume-RT conversions agree for every v, and the result always fits a
byte (no wraparound in the uint8 cast). -/
theorem pack_byte_truncates (v : ℚ) :
    writeGrayscaleByte v = ⌊clamp01 v * 255⌋
  ∧ volumeRTByte v = writeGrayscaleByte v
  ∧ 0 ≤ writeGrayscaleByte v ∧ writeGrayscaleByte v ≤ 255 := by
  have hArg : min (max (v * 255) 0) 255 = clamp01 v * 255 := by
    simp only [clamp01, min_def, max_def]
    split_ifs <;> nlinarith
  have h0 : (0:ℚ) ≤ clamp01 v * 255 := by
    have := clamp01_nonneg v
    nlinarith
  have h1 : clamp01 v * 255 ≤ 255 := by
    have := clamp01_le_one v
    nlinarith
  refine ⟨rfl, ?_, ?_, ?_⟩
  · rw [volumeRTByte, writeGrayscaleByte, hArg]
  · exact Int.le_floor.2 (by exact_mod_cast h0)
  · calc ⌊clamp01 v * 255⌋ ≤ ⌊(255:ℚ)⌋ := Int.floor_mono h1
      _ = 255 := by norm_num

/-- `FMath::Lerp(A, B, T) = A + (B - A) * T`. -/
def lerp (a b t : ℚ) : ℚ := a + (b - a) * t

/-- Position generation of `UPlanarTextureBaker::BakeLayer`: row-major
texel grid, U = X/(W−1), V = Y/(H−1), X and Y linearly interpolated across
`[center − size/2, center + size/2]`, Z fixed at `SampleZ + Ctr.Z`. -/
def planarPositions (W H : ℕ) (Ctr : ℚ × ℚ × ℚ) (Sz : ℚ × ℚ) (SampleZ : ℚ) :
    List (ℚ × ℚ × ℚ) :=
  let MinX := Ctr.1 - Sz.1 * (1/2)
  let MaxX := Ctr.1 + Sz.1 * (1/2)
  let MinY := Ctr.2.1 - Sz.2 * (1/2)
  let MaxY := Ctr.2.1 + Sz.2 * (1/2)
  (List.range H).flatMap (fun Y =>
    (List.range W).map (fun X =>
      (lerp MinX MaxX ((X : ℚ) / ((W : ℚ) - 1)),
       lerp MinY MaxY ((Y : ℚ) / ((H : ℚ) - 1)),
       SampleZ + Ctr.2.2)))

/-- The parameters captured by value when
`UPlanarTextureBaker::BakeLayer` dispatches its worker task. -/
structure PlanarBakeParams where
  W : ℕ
  H : ℕ
  Ctr : ℚ × ℚ × ℚ
  Sz : ℚ × ℚ
  SampleZ : ℚ
  metaType : MetadataType
  opts : ProcOpts
deriving DecidableEq, Repr

/-- The full worker-stage computation of the planar baker: position
generation followed by channel selection and post-processing of the field
responses. -/
def planarWorker (p : PlanarBakeParams) (resp : FieldResponse) :
    List (ℚ × ℚ × ℚ) × List LinearColor :=
  (planarPositions p.W p.H p.Ctr p.Sz p.SampleZ,
   planarProcess p.metaType p.opts (p.W * p.H) resp)

/-- C9: the worker stage is deterministic — two runs with equal captured
bake parameters and equal field-sampling responses produce identical
position buffers and identical processed pixel buffers. -/
theorem worker_deterministic (p₁ p₂ : PlanarBakeParams) (r₁ r₂ : FieldResponse)
    (hp : p₁ = p₂) (hr : r₁ = r₂) :
    planarWorker p₁ r₁ = planarWorker p₂ r₂ := by
  subst hp
  subst hr
  rfl

/-- Concrete 2×2 planar bake parameters. -/
def exampleParams : PlanarBakeParams :=
  ⟨2, 2, (0, 0, 0), (100, 100), 50, MetadataType.none, cexOpts⟩

/-- C9 witness: two runs on the same concrete parameters and responses
give identical results. -/
theorem worker_deterministic_witness :
    planarWorker exampleParams cexResp = planarWorker exampleParams cexResp :=
  worker_deterministic exampleParams exampleParams cexResp cexResp rfl rfl

/-- Position generation of `USphericalTextureBaker::BakeLayer` for texel
(x, y), over the reals: `U = x/W`, `V = y/(H−1)`,
`Lon = U·2π − π`, `Lat = V·π`,
`Pos = (R·sinLat·cosLon + Ctr.X, R·sinLat·sinLon + Ctr.Y, R·cosLat + Ctr.Z)`. -/
noncomputable def sphericalPosition (W H : ℕ) (Ctr : ℝ × ℝ × ℝ) (Radius : ℝ)
    (x y : ℕ) : ℝ × ℝ × ℝ :=
  let U : ℝ := (x : ℝ) / (W : ℝ)
  let V : ℝ := (y : ℝ) / ((H : ℝ) - 1)
  let lon : ℝ := U * (2 * Real.pi) - Real.pi
  let lat : ℝ := V * Real.pi
  (Radius * Real.sin lat * Real.cos lon + Ctr.1,
   Radius * Real.sin lat * Real.sin lon + Ctr.2.1,
   Radius * Real.cos lat + Ctr.2.2)

/-- The spec's wording of the equirectangular mapping:
`pos = center + R·(sin lat · cos lon, sin lat · sin lon, cos lat)` with
`lon = (x/W)·2π − π` and `lat = (y/(H−1))·π`. -/
noncomputable def sphericalPositionSpec (W H : ℕ) (Ctr : ℝ × ℝ × ℝ) (Radius : ℝ)
    (x y : ℕ) : ℝ × ℝ × ℝ :=
  let lon : ℝ := ((x : ℝ) / (W : ℝ)) * (2 * Real.pi) - Real.pi
  let lat : ℝ := ((y : ℝ) / ((H : ℝ) - 1)) * Real.pi
  (Ctr.1 + Radius * (Real.sin lat * Real.cos lon),
   Ctr.2.1 + Radius * (Real.sin lat * Real.sin lon),
   Ctr.2.2 + Radius * Real.cos lat)

/-- C6: the spherical (equirectangular) projection computes exactly the
spec's formula `center + R·(sinLat·cosLon, sinLat·sinLon, cosLat)` with
`lon = (x/W)·2π − π`, `lat = (y/(H−1))·π`, and it is seam-continuous in
longitude: for every row y the position at x = 0 equals the position the
same formula yields at x = W (longitude wraps from −π to π). -/
theorem spherical_seam_continuity (W H : ℕ) (Ctr : ℝ × ℝ × ℝ) (Radius : ℝ)
    (y : ℕ) :
    (∀ x, sphericalPosition W H Ctr Radius x y
        = sphericalPositionSpec W H Ctr Radius x y)
  ∧ sphericalPosition W H Ctr Radius 0 y = sphericalPosition W H Ctr Radius W y := by
  constructor
  · intro x
    simp only [sphericalPosition, sphericalPositionSpec, Prod.mk.injEq]
    exact ⟨by ring, by ring, by ring⟩
  · rcases Nat.eq_zero_or_pos W with hW | hW
    · subst hW
      rfl
    · have hWne : ((W : ℕ) : ℝ) ≠ 0 := Nat.cast_ne_zero.2 hW.ne'
      simp only [sphericalPosition, Nat.cast_zero, zero_div, zero_mul, zero_sub,
        div_self hWne, one_mul, Prod.mk.injEq]
      have h2pi : 2 * Real.pi - Real.pi = Real.pi := by ring
      rw [h2pi]
      refine ⟨?_, ?_, trivial⟩
      · rw [Real.cos_neg]
      · rw [Real.sin_neg, Real.sin_pi]
        ring

end VCET
